import Mathlib

/-!
A verification development for the BlueTask todo application
(React client over a Supabase backend).

The client code in src/React/src is shallowly embedded as pure Lean
functions over an explicit database state.  Modelling conventions:

* Each backend table (user_profiles, todos, shared_todos,
  todo_invitations, recently_deleted; see schema.sql) is a list of rows;
  an insert appends a row, an update maps over the rows matching the
  eq-filter, a delete filters them out.  Row ids and timestamps are
  natural numbers (UUIDs and ISO timestamps abstracted; timestamps are
  milliseconds since the epoch).
* A todos row carries exactly the fields the client writes.  Fields that
  only some code paths write (shared_count, last_edited_by, and the
  deletion metadata that restoreTodo strips) are Option-valued, with
  none meaning the insert carried no such key.
* Deleting a todos row also removes the shared_todos rows referencing
  it, per the ON DELETE CASCADE clause in schema.sql.
* Every clock read inside a single operation call is modelled by one
  `now` parameter for that call.
* Fallible steps return the pair of the state reached and an
  Except value; Except.error models a thrown error reaching the caller.
-/

namespace BlueTask

/-- Milliseconds in 30 days, the retention window used by every
deletion path: 30 * 24 * 60 * 60 * 1000. -/
def thirtyDaysMs : Nat := 30 * 24 * 60 * 60 * 1000

/-- A row of the user_profiles table (only the fields the embedded code
reads: id and email). -/
structure UserProfile where
  id : Nat
  email : String
deriving DecidableEq

/-- A row of the todos table, with the fields the client writes.  The
Option-valued fields model keys that only some inserts carry (the todos
table in schema.sql has no shared_count or last_edited_by column, but
the client sends them; the model records what the client writes). -/
structure Todo where
  id : Nat
  title : String
  description : String
  completed : Bool
  category : String
  due_date : Option Nat
  priority : String
  user_id : Nat
  owner : String
  original_owner : String
  created_at : Nat
  updated_at : Nat
  last_edited_by : Option String := none
  shared_count : Option Nat := none
  deleted_at : Option Nat := none
  expires_at : Option Nat := none
  is_shared : Option Bool := none
  shared_id : Option Nat := none
  shared_todo_id : Option Nat := none
  deleted_by : Option String := none
  permission : Option String := none
deriving DecidableEq

/-- A row of the shared_todos table (a share link). -/
structure SharedTodo where
  id : Nat
  todo_id : Option Nat
  recipient_email : String
  owner_email : String
  original_owner : String
  permission : String
  created_at : Nat
deriving DecidableEq

/-- A row of the todo_invitations table. -/
structure Invitation where
  id : Nat
  todo_id : Nat
  owner_email : String
  original_owner : String
  recipient_id : Nat
  recipient_email : String
  permission : String
  status : String
deriving DecidableEq

/-- A row of the recently_deleted table, with the fields
moveToRecentlyDeleted inserts (schema.sql lists the same columns; note
the table stores no completed flag). -/
structure RDRecord where
  id : Nat
  title : String
  description : String
  category : String
  due_date : Option Nat
  priority : String
  user_id : Nat
  owner : String
  original_owner : String
  is_shared : Bool
  shared_id : Option Nat
  shared_todo_id : Option Nat
  permission : Option String
  deleted_at : Nat
  deleted_by : String
  expires_at : Nat
deriving DecidableEq

/-- The backend state: one list of rows per table, plus a counter
supplying the ids the database generates for inserts that do not give
one (uuid_generate_v4 defaults in schema.sql). -/
structure DB where
  user_profiles : List UserProfile
  todos : List Todo
  shared_todos : List SharedTodo
  todo_invitations : List Invitation
  recently_deleted : List RDRecord
  nextId : Nat
deriving DecidableEq

/-- An entry of the in-memory todo list held by the App component:
the transformed shape built in the fetch effect of App.js.  Owned todos
have isShared = false and no sharedId or permission; todos shared with
the current user carry isShared = true, the share row id, and the
permission of the share. -/
structure FrontTodo where
  id : Nat
  title : String
  description : String
  completed : Bool
  category : String
  due_date : Option Nat
  priority : String
  user_id : Nat
  owner : String
  original_owner : String
  created_at : Nat
  isShared : Bool := false
  sharedId : Option Nat := none
  permission : Option String := none
deriving DecidableEq

/-- The authenticated user as App.js sees it. -/
structure AppUser where
  id : Nat
  email : String
deriving DecidableEq

/-- The todoData argument of moveToRecentlyDeleted: the object literal
built at each call site in deleteTodo (App.js).  Option-valued fields
model keys the literal may lack. -/
structure TodoData where
  title : String
  description : String
  category : String
  due_date : Option Nat
  priority : String
  user_id : Nat
  owner : String
  original_owner : String
  is_shared : Bool := false
  shared_id : Option Nat := none
  shared_todo_id : Option Nat := none
  permission : Option String := none
  deleted_at : Option Nat := none
  deleted_by : Option String := none
  expires_at : Option Nat := none
deriving DecidableEq

/-- The object-spread `...todo` of an in-memory todo into a todoData
literal.  The in-memory todo uses camelCase keys (isShared, sharedId),
so the spread contributes nothing to the snake_case is_shared,
shared_id and shared_todo_id keys that moveToRecentlyDeleted reads;
only the call sites that set them explicitly do.  The permission key
has the same spelling in both shapes and is carried over. -/
def FrontTodo.asData (t : FrontTodo) : TodoData :=
  { title := t.title
    description := t.description
    category := t.category
    due_date := t.due_date
    priority := t.priority
    user_id := t.user_id
    owner := t.owner
    original_owner := t.original_owner
    permission := t.permission }

/-- Deleting a todos row by id; the shared_todos rows referencing it go
with it (ON DELETE CASCADE in schema.sql). -/
def deleteTodoRow (todoId : Nat) (db : DB) : DB :=
  { db with
    todos := db.todos.filter (fun t => t.id != todoId)
    shared_todos := db.shared_todos.filter (fun s => s.todo_id != some todoId) }

/-- The recently_deleted row moveToRecentlyDeleted inserts, built from
its todoData argument (supabase.js): deleted_at, deleted_by and
expires_at fall back to the call clock, the owner field, and the call
clock plus 30 days when the caller did not supply them. -/
def rdRowOf (now todoId : Nat) (d : TodoData) : RDRecord :=
  { id := todoId
    title := d.title
    description := d.description
    category := d.category
    due_date := d.due_date
    priority := d.priority
    user_id := d.user_id
    owner := d.owner
    original_owner := d.original_owner
    is_shared := d.is_shared
    shared_id := d.shared_id
    shared_todo_id := d.shared_todo_id
    permission := d.permission
    deleted_at := d.deleted_at.getD now
    deleted_by := d.deleted_by.getD d.owner
    expires_at := d.expires_at.getD (now + thirtyDaysMs) }

/-- moveToRecentlyDeleted (supabase.js).  It inserts a recently_deleted
row and then branches on two flags computed from its todoData argument:
isOwnerDeleting holds when todoData.owner equals
todoData.original_owner, in which case it deletes every share link of
the todo and the todos row itself; isSharedUserDeleting holds when the
data is marked shared and the two owner fields differ, in which case it
deletes the single share link named by todoData.shared_id. -/
def moveToRecentlyDeleted (now todoId : Nat) (d : TodoData) (db : DB) : DB :=
  let isSharedUserDeleting := d.is_shared && d.owner != d.original_owner
  let isOwnerDeleting := d.owner == d.original_owner
  let db1 : DB := { db with recently_deleted := db.recently_deleted ++ [rdRowOf now todoId d] }
  if isOwnerDeleting then
    deleteTodoRow todoId
      { db1 with shared_todos := db1.shared_todos.filter (fun s => s.todo_id != some todoId) }
  else if isSharedUserDeleting && d.shared_id.isSome then
    { db1 with shared_todos := db1.shared_todos.filter (fun s => some s.id != d.shared_id) }
  else db1

/-- An element of the list getSharedUsers returns: the recipient of one
share link of a todo; the id field is the id of the recipient
user_profiles row (getSharedUsers in supabase.js maps each share to
share.user_profiles.id). -/
structure SharedUser where
  id : Nat
  email : String
  permission : String
deriving DecidableEq

/-- The map inside getSharedUsers: resolve every share of the list to
its recipient profile; a single missing profile makes the whole map
throw, which the catch of getSharedUsers turns into the empty list, so
the resolution is all-or-nothing. -/
def sharedUsersOf (profiles : List UserProfile) : List SharedTodo → Option (List SharedUser)
  | [] => some []
  | s :: rest =>
    match profiles.find? (fun p => p.email == s.recipient_email) with
    | none => none
    | some p => (sharedUsersOf profiles rest).map
        (fun l => { id := p.id, email := s.recipient_email, permission := s.permission } :: l)

/-- getSharedUsers (supabase.js): the recipients of the share links of a
todo, joined to their user_profiles rows; on any error the catch
returns the empty list. -/
def getSharedUsers (todoId : Nat) (db : DB) : List SharedUser :=
  (sharedUsersOf db.user_profiles (db.shared_todos.filter (fun s => s.todo_id == some todoId))).getD []

/-- The per-collaborator loop of the owner branch of deleteTodo
(App.js): for each shared user, look up their user_profiles row by
email and, when found, write a recently_deleted row for them via
moveToRecentlyDeleted; a missing profile skips that user. -/
def ownerLoop (user : AppUser) (now todoId : Nat) (base : TodoData) :
    List SharedUser → DB → DB
  | [], db => db
  | su :: rest, db =>
    match db.user_profiles.find? (fun p => p.email == su.email) with
    | some p =>
        ownerLoop user now todoId base rest
          (moveToRecentlyDeleted now todoId
            { base with
              user_id := p.id
              is_shared := true
              shared_id := some su.id
              shared_todo_id := some todoId
              deleted_at := some now
              deleted_by := some user.email
              expires_at := some (now + thirtyDaysMs) } db)
    | none => ownerLoop user now todoId base rest db

/-- deleteTodo (App.js).  Arguments mirror the call
onDelete(todo.id, todo.isShared, todo.sharedId); id 0 models a falsy id
hitting the opening guard.  Returns the new in-memory list and the new
backend state.  Three branches: the shared todo whose original owner is
the current user (snapshot for the owner and for every shared user,
then delete the todos row), the shared todo deleted by a collaborator
(snapshot for the collaborator, then delete their share link), and the
regular deletion (snapshot, then delete the todos row). -/
def deleteTodo (user : AppUser) (now : Nat) (id : Nat) (isShared : Bool)
    (sharedId : Option Nat) (todos : List FrontTodo) (db : DB) :
    List FrontTodo × DB :=
  if id == 0 then (todos, db) else
  match todos.find? (fun t => t.id == id) with
  | none => (todos, db)
  | some todo =>
    if isShared then
      if todo.original_owner == user.email then
        let sharedUsers := getSharedUsers id db
        let db1 := moveToRecentlyDeleted now id
          { todo.asData with
            user_id := user.id
            is_shared := true
            shared_todo_id := some id
            deleted_at := some now
            deleted_by := some user.email
            expires_at := some (now + thirtyDaysMs) } db
        let db2 := ownerLoop user now id todo.asData sharedUsers db1
        let db3 := deleteTodoRow id db2
        (todos.filter (fun t => t.id != id), db3)
      else
        let db1 := moveToRecentlyDeleted now id
          { todo.asData with
            user_id := user.id
            is_shared := true
            shared_id := sharedId
            shared_todo_id := some id
            deleted_at := some now
            deleted_by := some user.email
            expires_at := some (now + thirtyDaysMs) } db
        let db2 := { db1 with
          shared_todos := db1.shared_todos.filter (fun s => some s.id != sharedId) }
        (todos.filter (fun t => t.sharedId != sharedId), db2)
    else
      let db1 := moveToRecentlyDeleted now id
        { todo.asData with
          user_id := user.id
          deleted_at := some now
          deleted_by := some user.email
          expires_at := some (now + thirtyDaysMs) } db
      let db2 := deleteTodoRow id db1
      (todos.filter (fun t => t.id != id), db2)

/-- A field value sent in an update payload. -/
inductive FieldVal
  | b (x : Bool)
  | n (x : Nat)
  | s (x : String)
deriving DecidableEq

/-- A backend update request issued by the client, recorded as the
table targeted, the eq-filter, and the payload keys with their
values. -/
inductive Request
  | updateSharedTodos (sharedId : Option Nat) (fields : List (String × FieldVal))
  | updateTodos (id : Nat) (fields : List (String × FieldVal))
deriving DecidableEq

/-- Applying the toggle update to a todos row: set completed and
updated_at. -/
def applyToggle (c : Bool) (now : Nat) (t : Todo) : Todo :=
  { t with completed := c, updated_at := now }

/-- toggleTodo (App.js).  Finds the todo in the in-memory list; returns
untouched when it is missing or when it is a shared todo held with
view permission.  For a shared todo it updates the shared_todos row
through the dotted pseudo-field keys todo_data.completed and
todo_data.updated_at; the shared_todos table of schema.sql has no
todo_data column, so no modelled column changes.  For an owned todo it
updates completed and updated_at on the todos row.  Returns the new
in-memory list, the new backend state, and the update requests
issued. -/
def toggleTodo (now : Nat) (id : Nat) (todos : List FrontTodo) (db : DB) :
    List FrontTodo × DB × List Request :=
  match todos.find? (fun t => t.id == id) with
  | none => (todos, db, [])
  | some todo =>
    if todo.isShared && todo.permission == some "view" then (todos, db, [])
    else
      let updatedTodo := { todo with completed := !todo.completed }
      if todo.isShared then
        let req := Request.updateSharedTodos todo.sharedId
          [("todo_data.completed", FieldVal.b updatedTodo.completed),
           ("todo_data.updated_at", FieldVal.n now)]
        (todos.map (fun t => if t.id == id then updatedTodo else t), db, [req])
      else
        let req := Request.updateTodos id
          [("completed", FieldVal.b updatedTodo.completed),
           ("updated_at", FieldVal.n now)]
        let db1 : DB := { db with
          todos := db.todos.map (fun t =>
            if t.id == id then applyToggle updatedTodo.completed now t else t) }
        (todos.map (fun t => if t.id == id then updatedTodo else t), db1, [req])

/-- The updatedTodo object TodoItem passes to onEdit: title,
description, category, due_date and priority. -/
structure TodoUpdate where
  title : String
  description : String
  category : String
  due_date : Option Nat
  priority : String
deriving DecidableEq

/-- Applying the edit update to a todos row: the five edited fields
plus updated_at and last_edited_by. -/
def applyEdit (user : AppUser) (now : Nat) (upd : TodoUpdate) (t : Todo) : Todo :=
  { t with
    title := upd.title
    description := upd.description
    category := upd.category
    due_date := upd.due_date
    priority := upd.priority
    updated_at := now
    last_edited_by := some user.email }

/-- Applying the edit update to an in-memory todo. -/
def applyEditFront (upd : TodoUpdate) (t : FrontTodo) : FrontTodo :=
  { t with
    title := upd.title
    description := upd.description
    category := upd.category
    due_date := upd.due_date
    priority := upd.priority }

/-- editTodo (App.js).  Same guard as toggleTodo for shared todos held
with view permission; otherwise it always updates the todos row with
the edited fields, updated_at, and last_edited_by, and patches the
in-memory list. -/
def editTodo (user : AppUser) (now : Nat) (id : Nat) (upd : TodoUpdate)
    (todos : List FrontTodo) (db : DB) :
    List FrontTodo × DB × List Request :=
  match todos.find? (fun t => t.id == id) with
  | none => (todos, db, [])
  | some todo =>
    if todo.isShared && todo.permission == some "view" then (todos, db, [])
    else
      let req := Request.updateTodos id
        [("title", FieldVal.s upd.title),
         ("description", FieldVal.s upd.description),
         ("category", FieldVal.s upd.category),
         ("priority", FieldVal.s upd.priority),
         ("updated_at", FieldVal.n now),
         ("last_edited_by", FieldVal.s user.email)]
      let db1 : DB := { db with
        todos := db.todos.map (fun t => if t.id == id then applyEdit user now upd t else t) }
      (todos.map (fun t => if t.id == id then applyEditFront upd t else t), db1, [req])

/-- Setting the status of an invitation (the update ... eq id call of
handleInvitationResponse). -/
def updateInvStatus (invitationId : Nat) (st : String) (db : DB) : DB :=
  { db with todo_invitations :=
      db.todo_invitations.map fun i =>
        if i.id == invitationId then { i with status := st } else i }

/-- handleInvitationResponse (supabase.js).  On accept it fetches the
invitation (single() errors when it is missing), inserts one
shared_todos row built from the invitation, and only then updates the
invitation status to accepted; any thrown error is rethrown by the
catch.  On reject it just sets the status to rejected.  The
shareInsertOk flag models whether the backend accepts the shared_todos
insert; a refused insert is the thrown error of that step. -/
def handleInvitationResponse (userEmail : String) (invitationId todoId : Nat)
    (accept : Bool) (shareInsertOk : Bool) (now : Nat) (db : DB) :
    DB × Except String Unit :=
  if accept then
    match db.todo_invitations.find? (fun i => i.id == invitationId) with
    | none => (db, Except.error "invitation not found")
    | some inv =>
      if shareInsertOk then
        let row : SharedTodo :=
          { id := db.nextId
            todo_id := some todoId
            recipient_email := userEmail
            owner_email := inv.owner_email
            original_owner := inv.original_owner
            permission := inv.permission
            created_at := now }
        let db1 : DB := { db with
          shared_todos := db.shared_todos ++ [row]
          nextId := db.nextId + 1 }
        (updateInvStatus invitationId "accepted" db1, Except.ok ())
      else (db, Except.error "share insert failed")
  else (updateInvStatus invitationId "rejected" db, Except.ok ())

/-- The fresh todos row restoreTodo inserts when the record does not
represent a revoked share: the destructuring strips deleted_at,
expires_at, is_shared, shared_id, shared_todo_id, deleted_by and
permission (none here), keeps every other field of the record - the id
included - and adds fresh created_at and updated_at stamps and a
shared_count of 0.  The recently_deleted table stores no completed
flag, so the insert carries none and the column takes its schema
default, false. -/
def restoredTodoOf (now : Nat) (td : RDRecord) : Todo :=
  { id := td.id
    title := td.title
    description := td.description
    completed := false
    category := td.category
    due_date := td.due_date
    priority := td.priority
    user_id := td.user_id
    owner := td.owner
    original_owner := td.original_owner
    created_at := now
    updated_at := now
    shared_count := some 0 }

/-- The shared_todos row restoreTodo re-creates for a record it takes
for a revoked share: recipient is the record owner field, owner and
original owner are both the record original_owner, permission falls
back to view. -/
def restoredShareOf (now : Nat) (td : RDRecord) (freshId : Nat) : SharedTodo :=
  { id := freshId
    todo_id := td.shared_todo_id
    recipient_email := td.owner
    owner_email := td.original_owner
    original_owner := td.original_owner
    permission := td.permission.getD "view"
    created_at := now }

/-- restoreTodo (supabase.js).  Fetches the recently_deleted row by id
(single() errors when it is missing).  When the row is marked shared,
carries a shared_id, and its owner differs from its original_owner, it
re-creates only the share link; otherwise it inserts the fresh todos
row of restoredTodoOf.  Either way it then deletes the
recently_deleted row and returns the fetched record. -/
def restoreTodo (now : Nat) (todoId : Nat) (db : DB) : DB × Except String RDRecord :=
  match db.recently_deleted.find? (fun r => r.id == todoId) with
  | none => (db, Except.error "Todo not found in recently deleted")
  | some td =>
    if td.is_shared && td.shared_id.isSome && td.owner != td.original_owner then
      let db1 : DB := { db with
        shared_todos := db.shared_todos ++ [restoredShareOf now td db.nextId]
        nextId := db.nextId + 1 }
      ({ db1 with recently_deleted := db1.recently_deleted.filter (fun r => r.id != todoId) },
       Except.ok td)
    else
      let db1 : DB := { db with todos := db.todos ++ [restoredTodoOf now td] }
      ({ db1 with recently_deleted := db1.recently_deleted.filter (fun r => r.id != todoId) },
       Except.ok td)

/-- The structured result the AI client promises: summary, steps, time
estimate, difficulty, related tasks.  Step contents are abstracted to
strings (the claims only inspect emptiness). -/
structure AIResult where
  summary : String
  steps : List String
  estimatedTime : String
  difficulty : String
  relatedTasks : List String
deriving DecidableEq

/-- The placeholder returned when parsing the model content as JSON
fails (the inner catch of openaiService.js). -/
def placeholderStructured : AIResult :=
  { summary := "Error generating structured response"
    steps := []
    estimatedTime := "Unknown"
    difficulty := "medium"
    relatedTasks := [] }

/-- The placeholder returned by the outer catch of openaiService.js
(request failure, or a response without choices). -/
def placeholderGeneral : AIResult :=
  { summary := "Error generating AI response"
    steps := []
    estimatedTime := "Unknown"
    difficulty := "medium"
    relatedTasks := [] }

/-- The build-time AI configuration: endpoint, key and deployment; none
models a missing (or empty, hence falsy) environment variable. -/
structure AIEnv where
  endpoint : Option String
  apiKey : Option String
  deployment : Option String
deriving DecidableEq

/-- The outcome of the completion request: the request rejecting, or a
response carrying the message contents of its choices. -/
inductive AIOutcome
  | requestFailure
  | success (choices : List String)
deriving DecidableEq

/-- fetchAIResponse (openaiService.js), parameterised by the request
outcome and an abstract JSON parse of the first choice content.  The
missing-credentials check precedes the try block, so its throw is NOT
absorbed: it reaches the caller as Except.error.  Inside the try, a
request failure or an empty choices list degrades to placeholderGeneral
and a content that fails to parse degrades to placeholderStructured
(the content is trimmed before parsing). -/
def fetchAIResponse (env : AIEnv) (outcome : AIOutcome)
    (parse : String → Option AIResult) : Except String AIResult :=
  if !(env.endpoint.isSome && env.apiKey.isSome && env.deployment.isSome) then
    Except.error "Missing required environment variables"
  else
    match outcome with
    | AIOutcome.requestFailure => Except.ok placeholderGeneral
    | AIOutcome.success [] => Except.ok placeholderGeneral
    | AIOutcome.success (content :: _) =>
      match parse content.trim with
      | some r => Except.ok r
      | none => Except.ok placeholderStructured

/-- A user-visible effect an error handler produces: a console log, a
blocking alert, a fixed error text rendered inline in the component, or
the message of the failure itself rendered inline. -/
inductive UIEffect
  | consoleError (context : String)
  | alertBox (message : String)
  | inlineError (message : String)
  | inlineErrorOfFailure
deriving DecidableEq

/-- The catch block of addTodo (App.js): log, then a blocking alert. -/
def addTodoCatch : List UIEffect :=
  [UIEffect.consoleError "Error adding todo:",
   UIEffect.alertBox "Failed to add todo. Please try again."]

/-- The catch block of toggleTodo (App.js): log only. -/
def toggleTodoCatch : List UIEffect :=
  [UIEffect.consoleError "Error updating todo:"]

/-- The catch block of deleteTodo (App.js): log only. -/
def deleteTodoCatch : List UIEffect :=
  [UIEffect.consoleError "Error deleting todo:"]

/-- The catch block of editTodo (App.js): log only. -/
def editTodoCatch : List UIEffect :=
  [UIEffect.consoleError "Error editing todo:"]

/-- The catch block of handleInvitation (App.js): log only. -/
def handleInvitationCatch : List UIEffect :=
  [UIEffect.consoleError "Error handling invitation:"]

/-- The catch block of fetchTodos (App.js): log only. -/
def fetchTodosCatch : List UIEffect :=
  [UIEffect.consoleError "Error fetching todos:"]

/-- The catch block of the fetchSharedUsers effect (TodoItem.js): log
only. -/
def fetchSharedUsersCatch : List UIEffect :=
  [UIEffect.consoleError "Error fetching shared users:"]

/-- The catch block of handleShare (TodoItem.js): log, then a fixed
error text rendered inline in the share form (setShareError), not a
blocking alert. -/
def handleShareCatch : List UIEffect :=
  [UIEffect.consoleError "Error sharing todo:",
   UIEffect.inlineError "Error sharing todo. Please try again."]

/-- The catch block of handlePermissionChange (TodoItem.js): log, then
a blocking alert. -/
def handlePermissionChangeCatch : List UIEffect :=
  [UIEffect.consoleError "Error updating permission:",
   UIEffect.alertBox "Failed to update permission. Please try again."]

/-- The catch block of handleRevokeAccess (TodoItem.js): log only. -/
def handleRevokeAccessCatch : List UIEffect :=
  [UIEffect.consoleError "Error revoking access:"]

/-- The catch block of fetchDeletedTodos (RecentlyDeleted.js): log,
then the message of the failure rendered inline in the modal
(setError(err.message)), not a blocking alert. -/
def fetchDeletedTodosCatch : List UIEffect :=
  [UIEffect.consoleError "Error fetching deleted todos:",
   UIEffect.inlineErrorOfFailure]

/-- The catch block of handleRestore (RecentlyDeleted.js): log, then a
blocking alert. -/
def handleRestoreCatch : List UIEffect :=
  [UIEffect.consoleError "Error restoring todo:",
   UIEffect.alertBox "Failed to restore todo. Please try again."]

/-- The catch block of handlePermanentDelete (RecentlyDeleted.js): log,
then a blocking alert (note permanentlyDeleteTodo itself swallows its
errors and returns false, so this handler is reached only by a throw
outside that call). -/
def handlePermanentDeleteCatch : List UIEffect :=
  [UIEffect.consoleError "Error permanently deleting todo:",
   UIEffect.alertBox "Failed to permanently delete todo. Please try again."]

/-- Every component-level operation wrapping backend calls in a
try/catch, paired with the effects its catch block produces on failure:
the six handlers of App.js, the four of TodoItem.js and the three of
RecentlyDeleted.js.  The helper functions of supabase.js have their own
try/catch blocks, but those only log and then rethrow or return a
fallback value - the user-visible surfacing happens in these component
handlers; the AI client absorbs its failures into placeholder results.
(InvitationsModal.js is not part of the snapshot; its responses go
through the handleInvitation handler of App.js listed here.) -/
def backendFailureHandlers : List (String × List UIEffect) :=
  [("addTodo", addTodoCatch),
   ("toggleTodo", toggleTodoCatch),
   ("deleteTodo", deleteTodoCatch),
   ("editTodo", editTodoCatch),
   ("handleInvitation", handleInvitationCatch),
   ("fetchTodos", fetchTodosCatch),
   ("fetchSharedUsers", fetchSharedUsersCatch),
   ("handleShare", handleShareCatch),
   ("handlePermissionChange", handlePermissionChangeCatch),
   ("handleRevokeAccess", handleRevokeAccessCatch),
   ("fetchDeletedTodos", fetchDeletedTodosCatch),
   ("handleRestore", handleRestoreCatch),
   ("handlePermanentDelete", handlePermanentDeleteCatch)]

/-- Whether a list of handler effects contains a blocking alert. -/
def surfacesAlert (effects : List UIEffect) : Bool :=
  effects.any fun e =>
    match e with
    | UIEffect.alertBox _ => true
    | _ => false

/-! Concrete scenario shared by witnesses and counterexamples: alice
owns todo 1 and has shared it with bob (edit) and carol (view). -/

/-- The todos row of the shared scenario. -/
def aliceTodo : Todo :=
  { id := 1, title := "groceries", description := "", completed := false,
    category := "personal", due_date := none, priority := "medium",
    user_id := 1, owner := "alice", original_owner := "alice",
    created_at := 0, updated_at := 0 }

/-- The share link of bob (edit permission) in the shared scenario. -/
def shareBob : SharedTodo :=
  { id := 10, todo_id := some 1, recipient_email := "bob",
    owner_email := "alice", original_owner := "alice",
    permission := "edit", created_at := 0 }

/-- The share link of carol (view permission) in the shared scenario. -/
def shareCarol : SharedTodo :=
  { id := 11, todo_id := some 1, recipient_email := "carol",
    owner_email := "alice", original_owner := "alice",
    permission := "view", created_at := 0 }

/-- The backend state of the shared scenario. -/
def db0 : DB :=
  { user_profiles := [⟨1, "alice"⟩, ⟨2, "bob"⟩, ⟨3, "carol"⟩],
    todos := [aliceTodo],
    shared_todos := [shareBob, shareCarol],
    todo_invitations := [],
    recently_deleted := [],
    nextId := 100 }

/-- The in-memory view bob has of todo 1: shared, edit permission. -/
def bobFront : FrontTodo :=
  { id := 1, title := "groceries", description := "", completed := false,
    category := "personal", due_date := none, priority := "medium",
    user_id := 1, owner := "alice", original_owner := "alice",
    created_at := 0, isShared := true, sharedId := some 10,
    permission := some "edit" }

/-- The in-memory view carol has of todo 1: shared, view permission. -/
def carolFront : FrontTodo :=
  { bobFront with sharedId := some 11, permission := some "view" }

/-- A sample edit payload. -/
def updSample : TodoUpdate :=
  { title := "groceries and fruit", description := "d", category := "personal",
    due_date := none, priority := "high" }

/-- C6: for every todo in the list that is shared with the current user
with view permission, toggleTodo and editTodo are no-ops: both return
before issuing any backend request, the backend state is untouched and
the in-memory todo list is unchanged. -/
theorem view_permission_toggle_edit_noop
    (user : AppUser) (now id : Nat) (upd : TodoUpdate)
    (todos : List FrontTodo) (db : DB) (todo : FrontTodo)
    (hfind : todos.find? (fun t => t.id == id) = some todo)
    (hshared : todo.isShared = true)
    (hview : todo.permission = some "view") :
    toggleTodo now id todos db = (todos, db, []) ∧
    editTodo user now id upd todos db = (todos, db, []) := by
  unfold toggleTodo editTodo
  rw [hfind]
  simp [hshared, hview]

/-- Witness for view_permission_toggle_edit_noop: carol, holding todo 1
with view permission, toggles and edits it without effect. -/
theorem view_permission_toggle_edit_noop_witness :
    ([carolFront].find? (fun t => t.id == 1) = some carolFront) ∧
    carolFront.isShared = true ∧
    carolFront.permission = some "view" ∧
    (toggleTodo 5 1 [carolFront] db0 = ([carolFront], db0, []) ∧
     editTodo ⟨3, "carol"⟩ 5 1 updSample [carolFront] db0 = ([carolFront], db0, [])) :=
  ⟨rfl, rfl, rfl,
   view_permission_toggle_edit_noop ⟨3, "carol"⟩ 5 1 updSample [carolFront] db0 carolFront
     rfl rfl rfl⟩

/-- C8: for every shared todo held with edit permission, toggleTodo
issues exactly one update, against the shared_todos table, whose
payload keys are the dotted pseudo-fields todo_data.completed and
todo_data.updated_at; the backend state (and so the completed flag of
the underlying todos row) is not changed. -/
theorem toggle_shared_edit_dotted_update
    (now id : Nat) (todos : List FrontTodo) (db : DB) (todo : FrontTodo)
    (hfind : todos.find? (fun t => t.id == id) = some todo)
    (hshared : todo.isShared = true)
    (hedit : todo.permission = some "edit") :
    toggleTodo now id todos db =
      (todos.map (fun t => if t.id == id then { todo with completed := !todo.completed } else t),
       db,
       [Request.updateSharedTodos todo.sharedId
          [("todo_data.completed", FieldVal.b (!todo.completed)),
           ("todo_data.updated_at", FieldVal.n now)]]) := by
  unfold toggleTodo
  rw [hfind]
  simp [hshared, hedit]

/-- Witness for toggle_shared_edit_dotted_update: bob, holding todo 1
with edit permission, toggles it; the one request targets shared_todos
row 10 with the dotted keys and the backend state is unchanged. -/
theorem toggle_shared_edit_dotted_update_witness :
    ([bobFront].find? (fun t => t.id == 1) = some bobFront) ∧
    bobFront.isShared = true ∧
    bobFront.permission = some "edit" ∧
    toggleTodo 7 1 [bobFront] db0 =
      ([bobFront].map (fun t => if t.id == 1 then { bobFront with completed := !bobFront.completed } else t),
       db0,
       [Request.updateSharedTodos bobFront.sharedId
          [("todo_data.completed", FieldVal.b (!bobFront.completed)),
           ("todo_data.updated_at", FieldVal.n 7)]]) :=
  ⟨rfl, rfl, rfl,
   toggle_shared_edit_dotted_update 7 1 [bobFront] db0 bobFront rfl rfl rfl⟩

/-- C5: for a pending invitation present in the table,
handleInvitationResponse with accept inserts exactly one shared_todos
row carrying the owner, original owner and permission of the
invitation, and sets the invitation status to accepted; with reject it
only sets the status to rejected and inserts no shared_todos row. -/
theorem invitation_accept_reject_spec
    (userEmail : String) (invitationId todoId now : Nat) (db : DB) (inv : Invitation)
    (hfind : db.todo_invitations.find? (fun i => i.id == invitationId) = some inv) :
    handleInvitationResponse userEmail invitationId todoId true true now db =
      ({ db with
          shared_todos := db.shared_todos ++
            [{ id := db.nextId, todo_id := some todoId, recipient_email := userEmail,
               owner_email := inv.owner_email, original_owner := inv.original_owner,
               permission := inv.permission, created_at := now }],
          todo_invitations := db.todo_invitations.map (fun i =>
            if i.id == invitationId then { i with status := "accepted" } else i),
          nextId := db.nextId + 1 }, Except.ok ()) ∧
    handleInvitationResponse userEmail invitationId todoId false true now db =
      ({ db with todo_invitations := db.todo_invitations.map (fun i =>
            if i.id == invitationId then { i with status := "rejected" } else i) },
       Except.ok ()) := by
  unfold handleInvitationResponse updateInvStatus
  rw [hfind]
  simp

/-- A pending invitation for dave on todo 1, used by the invitation
witnesses. -/
def daveInvitation : Invitation :=
  { id := 20, todo_id := 1, owner_email := "alice", original_owner := "alice",
    recipient_id := 4, recipient_email := "dave", permission := "edit",
    status := "pending" }

/-- The shared scenario extended with the pending invitation of dave. -/
def dbInv : DB := { db0 with todo_invitations := [daveInvitation] }

/-- Witness for invitation_accept_reject_spec at the pending invitation
of dave. -/
theorem invitation_accept_reject_spec_witness :
    (dbInv.todo_invitations.find? (fun i => i.id == 20) = some daveInvitation) ∧
    (handleInvitationResponse "dave" 20 1 true true 50 dbInv =
      ({ dbInv with
          shared_todos := dbInv.shared_todos ++
            [{ id := dbInv.nextId, todo_id := some 1, recipient_email := "dave",
               owner_email := daveInvitation.owner_email,
               original_owner := daveInvitation.original_owner,
               permission := daveInvitation.permission, created_at := 50 }],
          todo_invitations := dbInv.todo_invitations.map (fun i =>
            if i.id == 20 then { i with status := "accepted" } else i),
          nextId := dbInv.nextId + 1 }, Except.ok ()) ∧
     handleInvitationResponse "dave" 20 1 false true 50 dbInv =
      ({ dbInv with todo_invitations := dbInv.todo_invitations.map (fun i =>
            if i.id == 20 then { i with status := "rejected" } else i) },
       Except.ok ())) :=
  ⟨rfl, invitation_accept_reject_spec "dave" 20 1 50 dbInv daveInvitation rfl⟩

/-- C10: when the shared_todos insert of an accepted invitation is
refused by the backend, handleInvitationResponse never reaches the
status update: the state is returned unchanged (the invitation keeps
its pending status) and the error is propagated to the caller. -/
theorem invitation_accept_insert_failure
    (userEmail : String) (invitationId todoId now : Nat) (db : DB) (inv : Invitation)
    (hfind : db.todo_invitations.find? (fun i => i.id == invitationId) = some inv) :
    handleInvitationResponse userEmail invitationId todoId true false now db =
      (db, Except.error "share insert failed") := by
  unfold handleInvitationResponse
  rw [hfind]
  simp

/-- Witness for invitation_accept_insert_failure at the pending
invitation of dave. -/
theorem invitation_accept_insert_failure_witness :
    (dbInv.todo_invitations.find? (fun i => i.id == 20) = some daveInvitation) ∧
    handleInvitationResponse "dave" 20 1 true false 50 dbInv =
      (dbInv, Except.error "share insert failed") :=
  ⟨rfl, invitation_accept_insert_failure "dave" 20 1 50 dbInv daveInvitation rfl⟩

/-- C2 counterexample: with the endpoint variable missing (and the
other credentials present), fetchAIResponse does not return the
placeholder payload - the missing-credentials check sits before the
try block of openaiService.js, so its thrown error reaches the caller.
This refutes the claim that the call returns a result object and never
throws on missing credentials. -/
theorem fetchAIResponse_missing_credentials_throws :
    fetchAIResponse ⟨none, some "key", some "deployment"⟩
      (AIOutcome.success ["content"]) (fun _ => none) =
      Except.error "Missing required environment variables" := rfl

/-- C2 amended: once all three credentials are present, fetchAIResponse
never throws; a request failure or an empty choices list returns the
general placeholder and an unparsable first choice content returns the
structured-response placeholder (both carry empty steps, Unknown time,
medium difficulty and empty related tasks). -/
theorem fetchAIResponse_absorbs_failures
    (env : AIEnv) (outcome : AIOutcome) (parse : String → Option AIResult)
    (h : (env.endpoint.isSome && env.apiKey.isSome && env.deployment.isSome) = true) :
    (∃ r, fetchAIResponse env outcome parse = Except.ok r) ∧
    fetchAIResponse env AIOutcome.requestFailure parse = Except.ok placeholderGeneral ∧
    fetchAIResponse env (AIOutcome.success []) parse = Except.ok placeholderGeneral ∧
    (∀ c rest, parse c.trim = none →
      fetchAIResponse env (AIOutcome.success (c :: rest)) parse =
        Except.ok placeholderStructured) := by
  unfold fetchAIResponse
  rw [h]
  refine ⟨?_, rfl, rfl, ?_⟩
  · cases outcome with
    | requestFailure => exact ⟨placeholderGeneral, rfl⟩
    | success choices =>
      cases choices with
      | nil => exact ⟨placeholderGeneral, rfl⟩
      | cons c rest =>
        cases hp : parse c.trim with
        | none => exact ⟨placeholderStructured, by simp [hp]⟩
        | some r => exact ⟨r, by simp [hp]⟩
  · intro c rest hp
    simp [hp]

/-- Witness for fetchAIResponse_absorbs_failures with full credentials,
a failing request, and a parse that always fails. -/
theorem fetchAIResponse_absorbs_failures_witness :
    ((some "e" : Option String).isSome && (some "k" : Option String).isSome &&
      (some "d" : Option String).isSome) = true ∧
    ((∃ r, fetchAIResponse ⟨some "e", some "k", some "d"⟩ AIOutcome.requestFailure
        (fun _ => none) = Except.ok r) ∧
     fetchAIResponse ⟨some "e", some "k", some "d"⟩ AIOutcome.requestFailure
        (fun _ => none) = Except.ok placeholderGeneral ∧
     fetchAIResponse ⟨some "e", some "k", some "d"⟩ (AIOutcome.success [])
        (fun _ => none) = Except.ok placeholderGeneral ∧
     (∀ c rest, (fun (_ : String) => (none : Option AIResult)) c.trim = none →
       fetchAIResponse ⟨some "e", some "k", some "d"⟩ (AIOutcome.success (c :: rest))
          (fun _ => none) = Except.ok placeholderStructured)) :=
  ⟨rfl, fetchAIResponse_absorbs_failures ⟨some "e", some "k", some "d"⟩
    AIOutcome.requestFailure (fun _ => none) rfl⟩

/-- C9 counterexample: the failure of the restore operation in the
recently-deleted modal is surfaced through a blocking alert as well
(the catch of handleRestore in RecentlyDeleted.js calls alert), so the
add-todo path is not the only operation alerting on failure. -/
theorem alert_not_only_addTodo :
    ¬ (∀ p ∈ backendFailureHandlers, surfacesAlert p.2 = true → p.1 = "addTodo") := by
  intro h
  have := h ("handleRestore", handleRestoreCatch) (by decide) (by decide)
  simp at this

/-- C9 amended: across the component-level try/catch handlers wrapping
backend calls, exactly four surface the failure through a blocking
alert - addTodo, the permission-change handler of the share panel, and
the restore and permanent-delete handlers of the recently-deleted
modal; every other handler logs (two of them also render an error text
inline) and shows no alert, leaving the UI state not updated. -/
theorem alert_exactly_four_handlers
    (p : String × List UIEffect) (hp : p ∈ backendFailureHandlers) :
    surfacesAlert p.2 =
      (p.1 == "addTodo" || p.1 == "handlePermissionChange" ||
        p.1 == "handleRestore" || p.1 == "handlePermanentDelete") := by
  fin_cases hp <;> decide

/-- Witness for alert_exactly_four_handlers at the addTodo handler. -/
theorem alert_exactly_four_handlers_witness :
    ("addTodo", addTodoCatch) ∈ backendFailureHandlers ∧
    surfacesAlert addTodoCatch =
      (("addTodo" == "addTodo") || ("addTodo" == "handlePermissionChange") ||
        ("addTodo" == "handleRestore") || ("addTodo" == "handlePermanentDelete")) :=
  ⟨by decide, alert_exactly_four_handlers ("addTodo", addTodoCatch) (by decide)⟩

/-- The recently-deleted record written for alice when she deletes todo
5, used by the restore scenario. -/
def aliceRD : RDRecord :=
  { id := 5, title := "groceries", description := "", category := "personal",
    due_date := none, priority := "medium", user_id := 1, owner := "alice",
    original_owner := "alice", is_shared := false, shared_id := none,
    shared_todo_id := none, permission := none, deleted_at := 0,
    deleted_by := "alice", expires_at := thirtyDaysMs }

/-- A backend state holding only the recently-deleted record of
alice. -/
def dbRD : DB :=
  { user_profiles := [⟨1, "alice"⟩], todos := [], shared_todos := [],
    todo_invitations := [], recently_deleted := [aliceRD], nextId := 100 }

/-- C4 counterexample: restoring the owner-deletion record with id 5
inserts a todos row whose id is 5 as well - the destructuring of
restoreTodo does not strip the id field, so the insert carries the id
of the recently-deleted record (which moveToRecentlyDeleted set to the
original todo id) instead of letting the database generate a new one.
This refutes the claim that the re-created todo has a new id. -/
theorem restore_reuses_record_id :
    (restoreTodo 999 5 dbRD).1.todos.map (fun t => t.id) = [5] ∧
    dbRD.recently_deleted.map (fun r => r.id) = [5] := ⟨rfl, rfl⟩

/-- C4 amended: for a record that restoreTodo takes for a revoked share
(marked shared, carrying a shared_id, owner differing from
original_owner) only the share link is re-created and no todos row is
inserted; for every other record a todos row is inserted that carries
the id of the record (not a new id), has the deletion and sharing
metadata stripped, and has its shared count reset to zero; in both
cases the recently-deleted record is removed. -/
theorem restoreTodo_spec (now todoId : Nat) (db : DB) (td : RDRecord)
    (hfind : db.recently_deleted.find? (fun r => r.id == todoId) = some td) :
    ((td.is_shared && td.shared_id.isSome && td.owner != td.original_owner) = true →
      restoreTodo now todoId db =
        ({ db with
            shared_todos := db.shared_todos ++ [restoredShareOf now td db.nextId],
            nextId := db.nextId + 1,
            recently_deleted := db.recently_deleted.filter (fun r => r.id != todoId) },
         Except.ok td)) ∧
    ((td.is_shared && td.shared_id.isSome && td.owner != td.original_owner) = false →
      restoreTodo now todoId db =
        ({ db with
            todos := db.todos ++ [restoredTodoOf now td],
            recently_deleted := db.recently_deleted.filter (fun r => r.id != todoId) },
         Except.ok td)) ∧
    (restoredTodoOf now td).id = td.id ∧
    (restoredTodoOf now td).deleted_at = none ∧
    (restoredTodoOf now td).expires_at = none ∧
    (restoredTodoOf now td).is_shared = none ∧
    (restoredTodoOf now td).shared_id = none ∧
    (restoredTodoOf now td).shared_todo_id = none ∧
    (restoredTodoOf now td).deleted_by = none ∧
    (restoredTodoOf now td).permission = none ∧
    (restoredTodoOf now td).shared_count = some 0 := by
  refine ⟨?_, ?_, rfl, rfl, rfl, rfl, rfl, rfl, rfl, rfl, rfl⟩
  · intro hcond
    unfold restoreTodo
    rw [hfind]
    simp [hcond]
  · intro hcond
    unfold restoreTodo
    rw [hfind]
    simp [hcond]

/-- Witness for restoreTodo_spec at the owner-deletion record of
alice. -/
theorem restoreTodo_spec_witness :
    (dbRD.recently_deleted.find? (fun r => r.id == 5) = some aliceRD) ∧
    ((aliceRD.is_shared && aliceRD.shared_id.isSome &&
        aliceRD.owner != aliceRD.original_owner) = false →
      restoreTodo 999 5 dbRD =
        ({ dbRD with
            todos := dbRD.todos ++ [restoredTodoOf 999 aliceRD],
            recently_deleted := dbRD.recently_deleted.filter (fun r => r.id != 5) },
         Except.ok aliceRD)) ∧
    (restoredTodoOf 999 aliceRD).id = aliceRD.id ∧
    (restoredTodoOf 999 aliceRD).shared_count = some 0 :=
  ⟨rfl, (restoreTodo_spec 999 5 dbRD aliceRD rfl).2.1,
   (restoreTodo_spec 999 5 dbRD aliceRD rfl).2.2.1,
   (restoreTodo_spec 999 5 dbRD aliceRD rfl).2.2.2.2.2.2.2.2.2.2⟩

/-- C1: bob, a collaborator who is not the original owner, deletes the
todo shared with him.  The claim says only his own shared_todos row is
removed and the todos row and the share link of carol stay.  The code
instead wipes everything: the collaborator branch of deleteTodo
(App.js) passes the todo data to moveToRecentlyDeleted, whose
isOwnerDeleting test compares todoData.owner with
todoData.original_owner - both fields come from the todo (the email of
alice), not from the deleting user - so the owner cascade runs,
deleting every share link and the todos row itself.  This contradicts
the comments of the very code (Shared user removing their access /
just remove their access) and the spec, which the surrounding code
follows. -/
theorem collaborator_delete_cascades :
    (deleteTodo ⟨2, "bob"⟩ 1000 1 true (some 10) [bobFront] db0).2.todos = [] ∧
    (deleteTodo ⟨2, "bob"⟩ 1000 1 true (some 10) [bobFront] db0).2.shared_todos = [] ∧
    (deleteTodo ⟨2, "bob"⟩ 1000 1 true (some 10) [bobFront] db0).2.recently_deleted.map
      (fun r => r.user_id) = [2] ∧
    db0.todos = [aliceTodo] ∧
    db0.shared_todos = [shareBob, shareCarol] := ⟨rfl, rfl, rfl, rfl, rfl⟩

/-- A successful profile resolution inside getSharedUsers: the emails
of the resolved shared users are exactly the recipient emails of the
shares, and each resolved user carries the id of the profile found for
that email. -/
theorem sharedUsersOf_spec (profiles : List UserProfile) :
    ∀ (shares : List SharedTodo) (sus : List SharedUser),
      sharedUsersOf profiles shares = some sus →
      sus.map (fun su => su.email) = shares.map (fun s => s.recipient_email) ∧
      ∀ su ∈ sus, profiles.find? (fun p => p.email == su.email) = some ⟨su.id, su.email⟩ := by
  intro shares
  induction shares with
  | nil =>
    intro sus h
    simp only [sharedUsersOf, Option.some.injEq] at h
    subst h
    simp
  | cons s rest ih =>
    intro sus h
    simp only [sharedUsersOf] at h
    cases hf : profiles.find? (fun p => p.email == s.recipient_email) with
    | none => rw [hf] at h; exact absurd h (by simp)
    | some p =>
      rw [hf] at h
      cases hr : sharedUsersOf profiles rest with
      | none => rw [hr] at h; exact absurd h (by simp)
      | some rsus =>
        rw [hr] at h
        have h' : SharedUser.mk p.id s.recipient_email s.permission :: rsus = sus := by
          simpa using h
        subst h'
        obtain ⟨h1, h2⟩ := ih rsus hr
        refine ⟨by simp [h1], ?_⟩
        intro su hsu
        rcases List.mem_cons.mp hsu with rfl | hmem
        · have hpe : p.email = s.recipient_email := by
            have := List.find?_some hf
            simpa using this
          have hp : p = (⟨p.id, s.recipient_email⟩ : UserProfile) := by
            cases p
            simp_all
          simpa [← hp] using hf
        · exact h2 su hmem

/-- When every share recipient has a profile, the resolution inside
getSharedUsers succeeds. -/
theorem sharedUsersOf_total (profiles : List UserProfile) :
    ∀ shares : List SharedTodo,
      (∀ s ∈ shares,
        (profiles.find? (fun p => p.email == s.recipient_email)).isSome = true) →
      (sharedUsersOf profiles shares).isSome = true := by
  intro shares
  induction shares with
  | nil => intro _; rfl
  | cons s rest ih =>
    intro h
    simp only [sharedUsersOf]
    cases hf : profiles.find? (fun p => p.email == s.recipient_email) with
    | none =>
      have := h s (by simp)
      rw [hf] at this
      exact absurd this (by simp)
    | some p =>
      have hrest := ih (fun x hx => h x (by simp [hx]))
      cases hr : sharedUsersOf profiles rest with
      | none => rw [hr] at hrest; exact absurd hrest (by simp)
      | some l => simp

/-- moveToRecentlyDeleted always appends exactly the one row rdRowOf
builds to recently_deleted, in every branch. -/
theorem moveToRecentlyDeleted_rd (now todoId : Nat) (d : TodoData) (db : DB) :
    (moveToRecentlyDeleted now todoId d db).recently_deleted =
      db.recently_deleted ++ [rdRowOf now todoId d] := by
  unfold moveToRecentlyDeleted deleteTodoRow
  dsimp only
  split
  · rfl
  · split
    · rfl
    · rfl

/-- A record present after moveToRecentlyDeleted was either already
there or is the inserted row. -/
theorem moveToRecentlyDeleted_rd_mem (now todoId : Nat) (d : TodoData) (db : DB)
    (r : RDRecord)
    (hr : r ∈ (moveToRecentlyDeleted now todoId d db).recently_deleted) :
    r ∈ db.recently_deleted ∨ r = rdRowOf now todoId d := by
  rw [moveToRecentlyDeleted_rd] at hr
  rcases List.mem_append.mp hr with h | h
  · exact Or.inl h
  · exact Or.inr (by simpa using h)

/-- In the branch where the todoData owner equals its original owner,
moveToRecentlyDeleted inserts the record, removes every share link of
the todo, and deletes the todos row. -/
theorem moveToRecentlyDeleted_owner (now todoId : Nat) (d : TodoData) (db : DB)
    (h : d.owner = d.original_owner) :
    moveToRecentlyDeleted now todoId d db =
      { db with
        recently_deleted := db.recently_deleted ++ [rdRowOf now todoId d],
        todos := db.todos.filter (fun t => t.id != todoId),
        shared_todos := db.shared_todos.filter (fun s => s.todo_id != some todoId) } := by
  unfold moveToRecentlyDeleted deleteTodoRow
  simp [h, List.filter_filter]

/-- The recently-deleted record the owner branch of deleteTodo writes
for the deleting owner. -/
def ownerRDRecordOf (user : AppUser) (now id : Nat) (todo : FrontTodo) : RDRecord :=
  rdRowOf now id
    { todo.asData with
      user_id := user.id, is_shared := true, shared_todo_id := some id,
      deleted_at := some now, deleted_by := some user.email,
      expires_at := some (now + thirtyDaysMs) }

/-- The recently-deleted record the owner branch of deleteTodo writes
for one shared user (user_id is the profile id of that recipient). -/
def sharedRDRecordOf (user : AppUser) (now id : Nat) (todo : FrontTodo)
    (su : SharedUser) : RDRecord :=
  rdRowOf now id
    { todo.asData with
      user_id := su.id, is_shared := true, shared_id := some su.id,
      shared_todo_id := some id, deleted_at := some now,
      deleted_by := some user.email, expires_at := some (now + thirtyDaysMs) }

/-- The per-collaborator loop of the owner branch appends one
recently-deleted record per resolved shared user and changes nothing
else, provided the todos row and the share links of the todo are
already gone and every shared user still resolves to a profile carrying
the recorded id. -/
theorem ownerLoop_spec (user : AppUser) (now todoId : Nat) (base : TodoData)
    (howner : base.owner = base.original_owner) :
    ∀ (sus : List SharedUser) (db : DB),
      (∀ su ∈ sus,
        db.user_profiles.find? (fun p => p.email == su.email) = some ⟨su.id, su.email⟩) →
      (∀ t ∈ db.todos, (t.id != todoId) = true) →
      (∀ s ∈ db.shared_todos, (s.todo_id != some todoId) = true) →
      ownerLoop user now todoId base sus db =
        { db with recently_deleted := db.recently_deleted ++
            sus.map (fun su => rdRowOf now todoId
              { base with
                user_id := su.id, is_shared := true, shared_id := some su.id,
                shared_todo_id := some todoId, deleted_at := some now,
                deleted_by := some user.email,
                expires_at := some (now + thirtyDaysMs) }) } := by
  intro sus
  induction sus with
  | nil =>
    intro db _ _ _
    simp [ownerLoop]
  | cons su rest ih =>
    intro db hprof htodos hshares
    have hf := hprof su (by simp)
    simp only [ownerLoop]
    rw [hf]
    dsimp only
    rw [moveToRecentlyDeleted_owner now todoId
      { base with
        user_id := su.id, is_shared := true, shared_id := some su.id,
        shared_todo_id := some todoId, deleted_at := some now,
        deleted_by := some user.email,
        expires_at := some (now + thirtyDaysMs) } db howner]
    rw [List.filter_eq_self.mpr htodos, List.filter_eq_self.mpr hshares]
    have ih' := ih
      { db with recently_deleted := db.recently_deleted ++
          [rdRowOf now todoId
            { base with
              user_id := su.id, is_shared := true, shared_id := some su.id,
              shared_todo_id := some todoId, deleted_at := some now,
              deleted_by := some user.email,
              expires_at := some (now + thirtyDaysMs) }] }
      (fun x hx => hprof x (List.mem_cons_of_mem _ hx)) htodos hshares
    rw [ih']
    simp

/-- C3 amended: in the deleteTodo branch for a shared todo whose
original owner is the current user - reached when the isShared argument
is true - (the owner cascade the spec describes, with the
owner field of the todo equal to its original owner, the configuration
the share flow of the app creates), and with every share recipient
holding a profile row: the todos row is removed, and recently_deleted
gains exactly one record for the deleting owner followed by one record
per share link of the todo, each carrying the profile id of that
recipient; the emails of the resolved shared users are exactly the
recipients of the share links of the todo. -/
theorem owner_delete_record_per_affected_user
    (user : AppUser) (now id : Nat) (sharedId : Option Nat)
    (todos : List FrontTodo) (db : DB) (todo : FrontTodo)
    (hid : (id == 0) = false)
    (hfind : todos.find? (fun t => t.id == id) = some todo)
    (horig : todo.original_owner = user.email)
    (howner : todo.owner = todo.original_owner)
    (hprof : ∀ s ∈ db.shared_todos, s.todo_id = some id →
      (db.user_profiles.find? (fun p => p.email == s.recipient_email)).isSome = true) :
    (deleteTodo user now id true sharedId todos db).2.todos =
      db.todos.filter (fun t => t.id != id) ∧
    (deleteTodo user now id true sharedId todos db).2.recently_deleted =
      db.recently_deleted ++ ownerRDRecordOf user now id todo ::
        (getSharedUsers id db).map (sharedRDRecordOf user now id todo) ∧
    (getSharedUsers id db).map (fun su => su.email) =
      (db.shared_todos.filter (fun s => s.todo_id == some id)).map
        (fun s => s.recipient_email) := by
  have htot := sharedUsersOf_total db.user_profiles
    (db.shared_todos.filter (fun s => s.todo_id == some id))
    (fun s hs => hprof s (List.mem_filter.mp hs).1
      (by simpa using (List.mem_filter.mp hs).2))
  obtain ⟨sus, hsus⟩ := Option.isSome_iff_exists.mp htot
  have hget : getSharedUsers id db = sus := by
    unfold getSharedUsers
    rw [hsus]
    rfl
  obtain ⟨hemails, hfindall⟩ := sharedUsersOf_spec db.user_profiles _ sus hsus
  have horig2 : (todo.original_owner == user.email) = true := by simp [horig]
  have hrun : deleteTodo user now id true sharedId todos db =
      (todos.filter (fun t => t.id != id),
        { db with
          recently_deleted := db.recently_deleted ++ ownerRDRecordOf user now id todo ::
            sus.map (sharedRDRecordOf user now id todo),
          todos := db.todos.filter (fun t => t.id != id),
          shared_todos := db.shared_todos.filter (fun s => s.todo_id != some id) }) := by
    unfold deleteTodo
    rw [hid]
    simp only [Bool.false_eq_true, if_false, hfind, horig2, if_true]
    rw [moveToRecentlyDeleted_owner now id
      { todo.asData with
        user_id := user.id, is_shared := true, shared_todo_id := some id,
        deleted_at := some now, deleted_by := some user.email,
        expires_at := some (now + thirtyDaysMs) } db howner]
    rw [hget]
    rw [ownerLoop_spec user now id todo.asData howner sus
      { db with
        recently_deleted := db.recently_deleted ++
          [rdRowOf now id
            { todo.asData with
              user_id := user.id, is_shared := true, shared_todo_id := some id,
              deleted_at := some now, deleted_by := some user.email,
              expires_at := some (now + thirtyDaysMs) }],
        todos := db.todos.filter (fun t => t.id != id),
        shared_todos := db.shared_todos.filter (fun s => s.todo_id != some id) }
      hfindall
      (fun t ht => (List.mem_filter.mp ht).2)
      (fun s hs => (List.mem_filter.mp hs).2)]
    simp [deleteTodoRow, List.filter_filter, ownerRDRecordOf, sharedRDRecordOf]
  rw [hrun, hget]
  exact ⟨rfl, rfl, hemails⟩

/-- The in-memory view alice has of todo 1 when it reaches the owner
branch of deleteTodo (shared flag set, original owner herself). -/
def aliceFrontShared : FrontTodo :=
  { id := 1, title := "groceries", description := "", completed := false,
    category := "personal", due_date := none, priority := "medium",
    user_id := 1, owner := "alice", original_owner := "alice",
    created_at := 0, isShared := true, sharedId := none, permission := none }

/-- Witness for owner_delete_record_per_affected_user: alice deletes
todo 1, shared with bob and carol; the todos row goes and exactly three
recently-deleted records are written - hers plus one per share link. -/
theorem owner_delete_record_per_affected_user_witness :
    ((1 == 0) = false) ∧
    ([aliceFrontShared].find? (fun t => t.id == 1) = some aliceFrontShared) ∧
    (aliceFrontShared.original_owner = "alice") ∧
    (aliceFrontShared.owner = aliceFrontShared.original_owner) ∧
    (∀ s ∈ db0.shared_todos, s.todo_id = some 1 →
      (db0.user_profiles.find? (fun p => p.email == s.recipient_email)).isSome = true) ∧
    ((deleteTodo ⟨1, "alice"⟩ 1000 1 true none [aliceFrontShared] db0).2.todos =
        db0.todos.filter (fun t => t.id != 1) ∧
      (deleteTodo ⟨1, "alice"⟩ 1000 1 true none [aliceFrontShared] db0).2.recently_deleted =
        db0.recently_deleted ++ ownerRDRecordOf ⟨1, "alice"⟩ 1000 1 aliceFrontShared ::
          (getSharedUsers 1 db0).map (sharedRDRecordOf ⟨1, "alice"⟩ 1000 1 aliceFrontShared) ∧
      (getSharedUsers 1 db0).map (fun su => su.email) =
        (db0.shared_todos.filter (fun s => s.todo_id == some 1)).map
          (fun s => s.recipient_email)) :=
  ⟨rfl, rfl, rfl, rfl, by decide,
   owner_delete_record_per_affected_user ⟨1, "alice"⟩ 1000 1 none
     [aliceFrontShared] db0 aliceFrontShared rfl rfl rfl rfl (by decide)⟩

/-- Every record present after the per-collaborator loop was either
already there or satisfies the 30-day expiry relation (the loop always
passes matching deleted_at and expires_at stamps). -/
theorem ownerLoop_rd_mem (user : AppUser) (now todoId : Nat) (base : TodoData) :
    ∀ (sus : List SharedUser) (db : DB) (r : RDRecord),
      r ∈ (ownerLoop user now todoId base sus db).recently_deleted →
      r ∈ db.recently_deleted ∨ r.expires_at = r.deleted_at + thirtyDaysMs := by
  intro sus
  induction sus with
  | nil => intro db r hr; exact Or.inl hr
  | cons su rest ih =>
    intro db r hr
    simp only [ownerLoop] at hr
    split at hr
    · rcases ih _ r hr with h | h
      · rcases moveToRecentlyDeleted_rd_mem _ _ _ _ _ h with h2 | h2
        · exact Or.inl h2
        · subst h2
          right
          simp [rdRowOf]
      · exact Or.inr h
    · exact ih _ r hr

/-- C7: every record in recently_deleted after any run of deleteTodo
(owner cascade, collaborator revocation, or regular deletion) that was
not there before carries an expires_at stamp exactly 30 days after its
deleted_at stamp. -/
theorem deleteTodo_expiry_30_days
    (user : AppUser) (now id : Nat) (isShared : Bool) (sharedId : Option Nat)
    (todos : List FrontTodo) (db : DB) :
    ∀ r ∈ (deleteTodo user now id isShared sharedId todos db).2.recently_deleted,
      r ∈ db.recently_deleted ∨ r.expires_at = r.deleted_at + thirtyDaysMs := by
  intro r hr
  by_cases h0 : (id == 0) = true
  · simp only [deleteTodo, h0, if_true] at hr
    exact Or.inl hr
  · have h0' : (id == 0) = false := by simpa using h0
    cases hfind : todos.find? (fun t => t.id == id) with
    | none =>
      simp only [deleteTodo, h0', Bool.false_eq_true, if_false, hfind] at hr
      exact Or.inl hr
    | some todo =>
      simp only [deleteTodo, h0', Bool.false_eq_true, if_false, hfind] at hr
      by_cases hs : isShared = true
      · by_cases ho : (todo.original_owner == user.email) = true
        · simp only [hs, ho, if_true] at hr
          rcases ownerLoop_rd_mem user now id todo.asData _ _ r hr with h | h
          · rcases moveToRecentlyDeleted_rd_mem _ _ _ _ _ h with h2 | h2
            · exact Or.inl h2
            · subst h2
              right
              simp [rdRowOf]
          · exact Or.inr h
        · have ho' : (todo.original_owner == user.email) = false := by simpa using ho
          simp only [hs, ho', Bool.false_eq_true, if_false, if_true] at hr
          rcases moveToRecentlyDeleted_rd_mem _ _ _ _ _ hr with h2 | h2
          · exact Or.inl h2
          · subst h2
            right
            simp [rdRowOf]
      · have hs' : isShared = false := by simpa using hs
        simp only [hs', Bool.false_eq_true, if_false] at hr
        rcases moveToRecentlyDeleted_rd_mem _ _ _ _ _ hr with h2 | h2
        · exact Or.inl h2
        · subst h2
          right
          simp [rdRowOf]

/-- The todoData the collaborator branch builds when bob deletes todo 1
in the shared scenario. -/
def dataBob : TodoData :=
  { bobFront.asData with
    user_id := 2, is_shared := true, shared_id := some 10,
    shared_todo_id := some 1, deleted_at := some 1000,
    deleted_by := some "bob", expires_at := some (1000 + thirtyDaysMs) }

/-- The in-memory view alice has of todo 1 as the fetch effect actually
builds it for rows of the todos table: no isShared flag. -/
def aliceFrontOwned : FrontTodo :=
  { aliceFrontShared with isShared := false }

/-- C3 counterexample: alice, original owner of todo 1 (shared with bob
and carol), deletes it the way the UI invokes deleteTodo for rows she
owns - owned rows carry no isShared flag, so the isShared argument is
false and the regular branch runs.  recently_deleted gains exactly one
record (hers, user_id 1) although two share links existed; the todos
row and both share links are removed all the same, so bob and carol
lose the todo with no recently-deleted record.  This refutes the claim
that every owner-initiated deletion writes one record per affected
user. -/
theorem owner_delete_regular_branch_single_record :
    (deleteTodo ⟨1, "alice"⟩ 1000 1 false none [aliceFrontOwned] db0).2.recently_deleted.map
      (fun r => r.user_id) = [1] ∧
    db0.shared_todos.map (fun s => s.recipient_email) = ["bob", "carol"] ∧
    (deleteTodo ⟨1, "alice"⟩ 1000 1 false none [aliceFrontOwned] db0).2.todos = [] ∧
    (deleteTodo ⟨1, "alice"⟩ 1000 1 false none [aliceFrontOwned] db0).2.shared_todos = [] :=
  ⟨rfl, rfl, rfl, rfl⟩

/-- Witness for deleteTodo_expiry_30_days at the record written when
bob deletes the shared todo 1. -/
theorem deleteTodo_expiry_30_days_witness :
    rdRowOf 1000 1 dataBob ∈
      (deleteTodo ⟨2, "bob"⟩ 1000 1 true (some 10) [bobFront] db0).2.recently_deleted ∧
    (rdRowOf 1000 1 dataBob ∈ db0.recently_deleted ∨
      (rdRowOf 1000 1 dataBob).expires_at =
        (rdRowOf 1000 1 dataBob).deleted_at + thirtyDaysMs) :=
  ⟨by decide,
   deleteTodo_expiry_30_days ⟨2, "bob"⟩ 1000 1 true (some 10) [bobFront] db0
     (rdRowOf 1000 1 dataBob) (by decide)⟩

end BlueTask
